import Mathlib

/-!
Shallow embedding of the variational-inference layers of the dmgp repository
(src/dmgp/layers/linear.py, src/dgp_sparse/layers/conv.py,
src/dmgp/models/cifar_dgp_variational.py).

Tensors are modelled as functions from a finite index type to the rationals.
The numeric substrate functions that the layers call but do not define
(torch.exp, torch.log1p, torch.log, the convolution kernels) are passed as
explicit function parameters; pointwise tensor arithmetic uses the Pi
instances of Mathlib (`*`, `+`, `-` on `ι → ℚ` act elementwise, exactly as
the corresponding torch elementwise operators do).
-/

/-- Elementwise sign, the embedding of `torch.Tensor.sign`:
`1` on positives, `-1` on negatives, `0` at `0`. -/
def tensorSign {ι : Type} (t : ι → ℚ) : ι → ℚ :=
  fun i => if 0 < t i then 1 else if t i < 0 then -1 else 0

/-- Elementwise `torch.log1p(torch.exp(rho))`, the expression the layers use
for `sigma = softplus(rho)`; `lg1p` and `ex` are the substrate functions
`log1p` and `exp`. -/
def softplusT {ι : Type} (lg1p ex : ℚ → ℚ) (t : ι → ℚ) : ι → ℚ :=
  fun i => lg1p (ex (t i))

/-- Modelled from the spec: `kl_div` of `_BaseVariationalLayer`
(file `base_variational_layer.py`, not present under src/).  Per the spec,
section 4.1: per element
`KL = log(sigma_p/sigma_q) + (sigma_q^2 + (mu_q - mu_p)^2)/(2*sigma_p^2) - 0.5`,
summed over every tensor element; `lg` is the substrate `log`. -/
def kl_div {ι : Type} [Fintype ι] (lg : ℚ → ℚ)
    (muQ sigmaQ muP sigmaP : ι → ℚ) : ℚ :=
  ∑ i, (lg (sigmaP i / sigmaQ i) +
        ((sigmaQ i) ^ 2 + (muQ i - muP i) ^ 2) / (2 * (sigmaP i) ^ 2) - 1 / 2)

/-- The deterministic affine operation `F.linear(x, w, b)`:
`out[i, j] = Σ_k x[i, k] * w[j, k] + b[j]` (bias absent contributes `0`,
mirroring `bias=None`). -/
def linearOp {n d p : ℕ} (x : Fin n × Fin d → ℚ) (w : Fin p × Fin d → ℚ)
    (b : Option (Fin p → ℚ)) : Fin n × Fin p → ℚ :=
  fun ij => (∑ k : Fin d, x (ij.1, k) * w (ij.2, k)) +
    (match b with
     | some bb => bb ij.2
     | none => 0)

/-- The bias-group parameters and buffers of a variational layer
(`mu_bias`, `rho_bias` parameters; `eps_bias`, `prior_bias_mu`,
`prior_bias_sigma` buffers).  A layer built with `bias=False` registers all
five as `None`; this is modelled by the enclosing `Option`. -/
structure BiasGroup (ιb : Type) where
  mu_bias : ιb → ℚ
  rho_bias : ιb → ℚ
  eps_bias : ιb → ℚ
  prior_bias_mu : ιb → ℚ
  prior_bias_sigma : ιb → ℚ

/-- The parameter/buffer state shared by every variational layer in the
repository: `mu`/`rho` weight parameters, the `eps` noise buffer, the two
prior buffers, the optional bias group, and the `dnn_to_bnn_flag`.
The flag itself is modelled from the spec (it lives on the missing base
class `_BaseVariationalLayer`): a boolean that, when set, forces
`return_kl` to `False` in every forward call. -/
structure VarLayerState (ιw ιb : Type) where
  mu_weight : ιw → ℚ
  rho_weight : ιw → ℚ
  eps_weight : ιw → ℚ
  prior_weight_mu : ιw → ℚ
  prior_weight_sigma : ιw → ℚ
  biasGroup : Option (BiasGroup ιb)
  dnn_to_bnn_flag : Bool

/-- `init_parameters` composed with the parameter/buffer registration of
`__init__`, common to every layer of the repository (linear.py lines
71-122/135-145 and the analogous conv.py constructors): priors are
broadcast-filled with the scalar `prior_mean` / `prior_variance`;
`mu`/`rho` receive their random initialization draws (`muDraw`, `rhoDraw`,
`muBiasDraw`, `rhoBiasDraw`); the `eps` buffers are allocated but not
filled (contents `epsW0` / `epsB0` arbitrary); with `bias=False` every
bias-related parameter and buffer is registered as `None`.
The flag starts `false` (modelled from the spec: the deterministic-mode
switch is off unless externally activated). -/
def varLayerInit {ιw ιb : Type} (prior_mean prior_variance : ℚ) (bias : Bool)
    (muDraw rhoDraw epsW0 : ιw → ℚ) (muBiasDraw rhoBiasDraw epsB0 : ιb → ℚ) :
    VarLayerState ιw ιb :=
  { mu_weight := muDraw
    rho_weight := rhoDraw
    eps_weight := epsW0
    prior_weight_mu := fun _ => prior_mean
    prior_weight_sigma := fun _ => prior_variance
    biasGroup :=
      if bias then
        some { mu_bias := muBiasDraw
               rho_bias := rhoBiasDraw
               eps_bias := epsB0
               prior_bias_mu := fun _ => prior_mean
               prior_bias_sigma := fun _ => prior_variance }
      else none
    dnn_to_bnn_flag := false }

/-- `kl_loss` — identical body in all fourteen layers (linear.py lines
147-158 and 311-317, conv.py): the weight-group KL with `sigma`
freshly recomputed as `log1p(exp(rho))`, plus the bias-group KL when the
bias is present. -/
def VariationalLayer.kl_loss {ιw ιb : Type} [Fintype ιw] [Fintype ιb]
    (lg lg1p ex : ℚ → ℚ) (s : VarLayerState ιw ιb) : ℚ :=
  let sigma_weight := softplusT lg1p ex s.rho_weight
  let kl := kl_div lg s.mu_weight sigma_weight s.prior_weight_mu
    s.prior_weight_sigma
  match s.biasGroup with
  | some bg =>
      kl + kl_div lg bg.mu_bias (softplusT lg1p ex bg.rho_bias)
        bg.prior_bias_mu bg.prior_bias_sigma
  | none => kl

/-- Result of one forward call: the output tensor, the optional KL scalar
(`none` models returning the bare output instead of the `(output, kl)`
tuple), the layer state after the call (the `eps` buffers have been
overwritten in place by `.data.normal_()`), and the number of times the
deterministic operation was applied. -/
structure FwdResult (ιy ιw ιb : Type) where
  out : ιy → ℚ
  kl : Option ℚ
  state : VarLayerState ιw ιb
  opCalls : ℕ

/-- One application of the deterministic operation, threading the call
counter: every `F.linear` / `F.convNd` / `F.conv_transposeNd` call site in
the embedded forward bodies goes through this helper. -/
def applyOp {ιx ιw ιb ιy : Type}
    (op : (ιx → ℚ) → (ιw → ℚ) → Option (ιb → ℚ) → (ιy → ℚ))
    (x : ιx → ℚ) (w : ιw → ℚ) (b : Option (ιb → ℚ)) (calls : ℕ) :
    (ιy → ℚ) × ℕ :=
  (op x w b, calls + 1)

/-- The forward body shared by the reparameterization layers
(`LinearReparameterization.forward`, linear.py lines 160-213, and the six
`Conv*/ConvTranspose*Reparameterization.forward` bodies in conv.py, which
differ from it only in the deterministic operation `op` and in the
structural configuration closed over by `op`): the flag forces
`return_kl` off; `sigma` is recomputed from the current `rho`; the `eps`
buffers are overwritten in place with the fresh standard-normal draws
`freshW` / `freshB`; the sampled weight is `mu + sigma * eps` (and the
sampled bias `mu_bias + sigma_bias * eps_bias` when the bias is present);
`op` is applied once.  In the source the `kl_div` values are only computed
under `if return_kl:`; being pure they are bound unconditionally here and
used only when `return_kl` holds. -/
def reparamForward {ιx ιw ιb ιy : Type} [Fintype ιw] [Fintype ιb]
    (lg lg1p ex : ℚ → ℚ)
    (op : (ιx → ℚ) → (ιw → ℚ) → Option (ιb → ℚ) → (ιy → ℚ))
    (s : VarLayerState ιw ιb) (x : ιx → ℚ)
    (freshW : ιw → ℚ) (freshB : ιb → ℚ) (return_kl : Bool) :
    FwdResult ιy ιw ιb :=
  let return_kl := if s.dnn_to_bnn_flag then false else return_kl
  let sigma_weight := softplusT lg1p ex s.rho_weight
  let eps_weight := freshW
  let tmp_result := sigma_weight * eps_weight
  let weight := s.mu_weight + tmp_result
  let kl_weight := kl_div lg s.mu_weight sigma_weight s.prior_weight_mu
    s.prior_weight_sigma
  match s.biasGroup with
  | some bg =>
      let sigma_bias := softplusT lg1p ex bg.rho_bias
      let eps_bias := freshB
      let bias := bg.mu_bias + sigma_bias * eps_bias
      let kl_bias := kl_div lg bg.mu_bias sigma_bias bg.prior_bias_mu
        bg.prior_bias_sigma
      let oc := applyOp op x weight (some bias) 0
      { out := oc.1
        kl := if return_kl then some (kl_weight + kl_bias) else none
        state := { s with eps_weight := freshW,
                          biasGroup := some { bg with eps_bias := freshB } }
        opCalls := oc.2 }
  | none =>
      let oc := applyOp op x weight none 0
      { out := oc.1
        kl := if return_kl then some kl_weight else none
        state := { s with eps_weight := freshW }
        opCalls := oc.2 }

/-- `LinearReparameterization.forward` is the reparameterization body with
the affine operation `F.linear`. -/
def LinearReparameterization.forward {n d p : ℕ} (lg lg1p ex : ℚ → ℚ)
    (s : VarLayerState (Fin p × Fin d) (Fin p)) (x : Fin n × Fin d → ℚ)
    (freshW : Fin p × Fin d → ℚ) (freshB : Fin p → ℚ) (return_kl : Bool) :
    FwdResult (Fin n × Fin p) (Fin p × Fin d) (Fin p) :=
  reparamForward lg lg1p ex linearOp s x freshW freshB return_kl

/-- `LinearFlipout.forward` (linear.py lines 319-381).  `u1`/`u2` are the
uniform(-1,1) draws written in place into the clones of `x` and of the
mean-path output by `.clone().uniform_(-1, 1)`; the sign tensors are their
elementwise signs.  The mean path applies `F.linear` with
(`mu_weight`, `mu_bias`); the perturbed path applies it to `x * sign_input`
with weight `delta_weight = sigma_weight * eps_weight` and, when the bias
is present, the raw bias draw `sigma_bias * eps_bias` (never `mu_bias`);
the result is multiplied by `sign_output` and added to the mean path. -/
def LinearFlipout.forward {n d p : ℕ} (lg lg1p ex : ℚ → ℚ)
    (s : VarLayerState (Fin p × Fin d) (Fin p)) (x : Fin n × Fin d → ℚ)
    (freshW : Fin p × Fin d → ℚ) (freshB : Fin p → ℚ)
    (u1 : Fin n × Fin d → ℚ) (u2 : Fin n × Fin p → ℚ) (return_kl : Bool) :
    FwdResult (Fin n × Fin p) (Fin p × Fin d) (Fin p) :=
  let return_kl := if s.dnn_to_bnn_flag then false else return_kl
  let sigma_weight := softplusT lg1p ex s.rho_weight
  let eps_weight := freshW
  let delta_weight := sigma_weight * eps_weight
  let kl_w := kl_div lg s.mu_weight sigma_weight s.prior_weight_mu
    s.prior_weight_sigma
  match s.biasGroup with
  | some bg =>
      let sigma_bias := softplusT lg1p ex bg.rho_bias
      let bias := sigma_bias * freshB
      let kl := kl_w + kl_div lg bg.mu_bias sigma_bias bg.prior_bias_mu
        bg.prior_bias_sigma
      let oc := applyOp linearOp x s.mu_weight (some bg.mu_bias) 0
      let sign_input := tensorSign u1
      let sign_output := tensorSign u2
      let x_tmp := x * sign_input
      let oc2 := applyOp linearOp x_tmp delta_weight (some bias) oc.2
      let perturbed_outputs := oc2.1 * sign_output
      let out := oc.1 + perturbed_outputs
      { out := out
        kl := if return_kl then some kl else none
        state := { s with eps_weight := freshW,
                          biasGroup := some { bg with eps_bias := freshB } }
        opCalls := oc2.2 }
  | none =>
      let oc := applyOp linearOp x s.mu_weight none 0
      let sign_input := tensorSign u1
      let sign_output := tensorSign u2
      let x_tmp := x * sign_input
      let oc2 := applyOp linearOp x_tmp delta_weight none oc.2
      let perturbed_outputs := oc2.1 * sign_output
      let out := oc.1 + perturbed_outputs
      { out := out
        kl := if return_kl then some kl_w else none
        state := { s with eps_weight := freshW }
        opCalls := oc2.2 }

/-- The forward body shared by `Conv{1,2,3}dFlipout` and
`ConvTranspose{1,2}dFlipout` (conv.py; the five bodies differ only in the
deterministic operation `op` and the configuration it closes over): mean
path with (`mu_kernel`, `mu_bias`) first, then the two sign draws, then
`delta_kernel = sigma_weight * eps_kernel`, then the perturbed pass on
`x * sign_input` with weight `delta_kernel` and raw bias draw
`sigma_bias * eps_bias`, multiplied by `sign_output` and added to the mean
path.  `ConvTranspose3dFlipout` is embedded separately below because its
bias-branch KL update lacks the `if return_kl:` guard. -/
def ConvFlipout.forward {ιx ιw ιb ιy : Type} [Fintype ιw] [Fintype ιb]
    (lg lg1p ex : ℚ → ℚ)
    (op : (ιx → ℚ) → (ιw → ℚ) → Option (ιb → ℚ) → (ιy → ℚ))
    (s : VarLayerState ιw ιb) (x : ιx → ℚ)
    (freshW : ιw → ℚ) (freshB : ιb → ℚ)
    (u1 : ιx → ℚ) (u2 : ιy → ℚ) (return_kl : Bool) :
    FwdResult ιy ιw ιb :=
  let return_kl := if s.dnn_to_bnn_flag then false else return_kl
  match s.biasGroup with
  | some bg =>
      let oc := applyOp op x s.mu_weight (some bg.mu_bias) 0
      let sign_input := tensorSign u1
      let sign_output := tensorSign u2
      let sigma_weight := softplusT lg1p ex s.rho_weight
      let eps_kernel := freshW
      let delta_kernel := sigma_weight * eps_kernel
      let kl_w := kl_div lg s.mu_weight sigma_weight s.prior_weight_mu
        s.prior_weight_sigma
      let sigma_bias := softplusT lg1p ex bg.rho_bias
      let bias := sigma_bias * freshB
      let kl := kl_w + kl_div lg bg.mu_bias sigma_bias bg.prior_bias_mu
        bg.prior_bias_sigma
      let x_tmp := x * sign_input
      let oc2 := applyOp op x_tmp delta_kernel (some bias) oc.2
      let perturbed_outputs := oc2.1 * sign_output
      { out := oc.1 + perturbed_outputs
        kl := if return_kl then some kl else none
        state := { s with eps_weight := freshW,
                          biasGroup := some { bg with eps_bias := freshB } }
        opCalls := oc2.2 }
  | none =>
      let oc := applyOp op x s.mu_weight none 0
      let sign_input := tensorSign u1
      let sign_output := tensorSign u2
      let sigma_weight := softplusT lg1p ex s.rho_weight
      let eps_kernel := freshW
      let delta_kernel := sigma_weight * eps_kernel
      let kl_w := kl_div lg s.mu_weight sigma_weight s.prior_weight_mu
        s.prior_weight_sigma
      let x_tmp := x * sign_input
      let oc2 := applyOp op x_tmp delta_kernel none oc.2
      let perturbed_outputs := oc2.1 * sign_output
      { out := oc.1 + perturbed_outputs
        kl := if return_kl then some kl_w else none
        state := { s with eps_weight := freshW }
        opCalls := oc2.2 }

/-- `ConvTranspose3dFlipout.forward` (conv.py lines 2290-2358).  Identical
to the other Flipout bodies except that the bias-branch KL update
(line 2322, `kl = kl + self.kl_div(...)`) is not guarded by
`if return_kl:`; when `return_kl` is `False` (in particular whenever
`dnn_to_bnn_flag` is set) and the bias is present, the local `kl` is read
before any assignment, which raises at run time.  The `Except` error value
models that failure. -/
def ConvTranspose3dFlipout.forward {ιx ιw ιb ιy : Type}
    [Fintype ιw] [Fintype ιb] (lg lg1p ex : ℚ → ℚ)
    (op : (ιx → ℚ) → (ιw → ℚ) → Option (ιb → ℚ) → (ιy → ℚ))
    (s : VarLayerState ιw ιb) (x : ιx → ℚ)
    (freshW : ιw → ℚ) (freshB : ιb → ℚ)
    (u1 : ιx → ℚ) (u2 : ιy → ℚ) (return_kl : Bool) :
    Except String (FwdResult ιy ιw ιb) :=
  let return_kl := if s.dnn_to_bnn_flag then false else return_kl
  match s.biasGroup with
  | some bg =>
      let oc := applyOp op x s.mu_weight (some bg.mu_bias) 0
      let sign_input := tensorSign u1
      let sign_output := tensorSign u2
      let sigma_weight := softplusT lg1p ex s.rho_weight
      let eps_kernel := freshW
      let delta_kernel := sigma_weight * eps_kernel
      let klLocal : Option ℚ :=
        if return_kl then
          some (kl_div lg s.mu_weight sigma_weight s.prior_weight_mu
            s.prior_weight_sigma)
        else none
      match klLocal with
      | none =>
          .error "UnboundLocalError: local variable kl referenced before assignment"
      | some klv =>
          let sigma_bias := softplusT lg1p ex bg.rho_bias
          let bias := sigma_bias * freshB
          let kl := klv + kl_div lg bg.mu_bias sigma_bias bg.prior_bias_mu
            bg.prior_bias_sigma
          let x_tmp := x * sign_input
          let oc2 := applyOp op x_tmp delta_kernel (some bias) oc.2
          let perturbed_outputs := oc2.1 * sign_output
          .ok { out := oc.1 + perturbed_outputs
                kl := if return_kl then some kl else none
                state := { s with eps_weight := freshW,
                                  biasGroup := some { bg with eps_bias := freshB } }
                opCalls := oc2.2 }
  | none =>
      let oc := applyOp op x s.mu_weight none 0
      let sign_input := tensorSign u1
      let sign_output := tensorSign u2
      let sigma_weight := softplusT lg1p ex s.rho_weight
      let eps_kernel := freshW
      let delta_kernel := sigma_weight * eps_kernel
      let kl_w := kl_div lg s.mu_weight sigma_weight s.prior_weight_mu
        s.prior_weight_sigma
      let x_tmp := x * sign_input
      let oc2 := applyOp op x_tmp delta_kernel none oc.2
      let perturbed_outputs := oc2.1 * sign_output
      .ok { out := oc.1 + perturbed_outputs
            kl := if return_kl then some kl_w else none
            state := { s with eps_weight := freshW }
            opCalls := oc2.2 }

/-- The configuration error raised at construction; both divisibility
checks in the source raise `ValueError` with the same message
(conv.py, e.g. lines 294-297). -/
inductive ConfigError where
  | invalidInChannels : ConfigError
deriving DecidableEq, Repr

/-- `Conv2dReparameterization.__init__` (conv.py lines 248-353): the two
`groups` divisibility checks run first and raise before any parameter or
buffer tensor is allocated; on success the parameters and buffers are
allocated with weight shape
`[out_channels, in_channels // groups, kernel_size, kernel_size]`
(the scalar kernel size broadcast to a pair by `get_kernel_size`,
modelled from the spec since `base_variational_layer.py` is not under
src/) and `init_parameters` fills them. -/
def Conv2dReparameterization.init (in_channels out_channels kernel_size
    groups : ℕ) (prior_mean prior_variance : ℚ) (bias : Bool)
    (muDraw rhoDraw epsW0 :
      Fin out_channels × Fin (in_channels / groups) ×
        Fin kernel_size × Fin kernel_size → ℚ)
    (muBiasDraw rhoBiasDraw epsB0 : Fin out_channels → ℚ) :
    Except ConfigError
      (VarLayerState
        (Fin out_channels × Fin (in_channels / groups) ×
          Fin kernel_size × Fin kernel_size)
        (Fin out_channels)) :=
  if in_channels % groups ≠ 0 then .error .invalidInChannels
  else if out_channels % groups ≠ 0 then .error .invalidInChannels
  else .ok (varLayerInit prior_mean prior_variance bias muDraw rhoDraw epsW0
    muBiasDraw rhoBiasDraw epsB0)

/-- `Conv1dFlipout.__init__` (conv.py lines 1170-1255): unlike the
Reparameterization constructors it performs no `groups` divisibility
validation; it always allocates the parameters and buffers, with weight
shape `[out_channels, in_channels // groups, kernel_size]`. -/
def Conv1dFlipout.init (in_channels out_channels kernel_size groups : ℕ)
    (prior_mean prior_variance : ℚ) (bias : Bool)
    (muDraw rhoDraw epsW0 :
      Fin out_channels × Fin (in_channels / groups) × Fin kernel_size → ℚ)
    (muBiasDraw rhoBiasDraw epsB0 : Fin out_channels → ℚ) :
    Except ConfigError
      (VarLayerState
        (Fin out_channels × Fin (in_channels / groups) × Fin kernel_size)
        (Fin out_channels)) :=
  .ok (varLayerInit prior_mean prior_variance bias muDraw rhoDraw epsW0
    muBiasDraw rhoBiasDraw epsB0)

/-- An external optimizer step writing a new value into the `rho_weight`
parameter; nothing else in the layer changes (in particular no cached
`sigma` exists anywhere in the state to go stale). -/
def updateRhoWeight {ιw ιb : Type} (s : VarLayerState ιw ιb)
    (r : ιw → ℚ) : VarLayerState ιw ιb :=
  { s with rho_weight := r }

/-! ## Storage-level model of the Flipout forward pass

To settle the frame claim that a Flipout forward call leaves the caller's
input tensor untouched, the tensor operations of the forward body are
re-traced at the level of storage: every tensor lives in a cell of a heap,
out-of-place torch operations allocate a fresh cell, and the in-place
operations (`.data.normal_()` on the `eps` buffers, `.uniform_(-1, 1)` on
the clones) write into an existing cell.  Tensor values are an abstract
type `T` and the value-level operations are abstract parameters — only
which cells get written matters here. -/

/-- A heap of tensor cells: contents plus the next fresh address. -/
structure Heap (T : Type) where
  mem : ℕ → T
  next : ℕ

/-- Read the tensor in cell `r`. -/
def Heap.read {T : Type} (h : Heap T) (r : ℕ) : T := h.mem r

/-- Overwrite cell `r` in place (the torch `_`-suffixed operations). -/
def Heap.write {T : Type} (h : Heap T) (r : ℕ) (v : T) : Heap T :=
  { h with mem := fun m => if m = r then v else h.mem m }

/-- Allocate a fresh cell holding `v` (every out-of-place torch operation). -/
def Heap.alloc {T : Type} (h : Heap T) (v : T) : ℕ × Heap T :=
  (h.next,
   { mem := fun m => if m = h.next then v else h.mem m, next := h.next + 1 })

/-- One storage event of a forward body: an out-of-place operation
allocating its result (`allocStep`), an in-place operation overwriting an
existing cell (`writeStep`), or `clone()` immediately followed by an
in-place fill of the fresh clone, as in `.clone().uniform_(-1, 1)`
(`allocWriteStep`: allocate with the cloned value `v0`, then overwrite
that same fresh cell with `v1`). -/
inductive TraceStep (T : Type) where
  | allocStep (v : Heap T → T)
  | writeStep (r : ℕ) (v : Heap T → T)
  | allocWriteStep (v0 : Heap T → T) (v1 : Heap T → T)

/-- Execute one storage event. -/
def TraceStep.exec {T : Type} (h : Heap T) : TraceStep T → Heap T
  | .allocStep v => (h.alloc (v h)).2
  | .writeStep r v => h.write r (v h)
  | .allocWriteStep v0 v1 =>
      let a := h.alloc (v0 h)
      a.2.write a.1 (v1 a.2)

/-- Execute a sequence of storage events. -/
def execTrace {T : Type} (h : Heap T) : List (TraceStep T) → Heap T
  | [] => h
  | s :: rest => execTrace (s.exec h) rest

/-- A step never writes the pre-existing cell `r`: allocations and
clone-fills only touch fresh cells; an explicit in-place write must target
a different cell. -/
def TraceStep.writesOutside {T : Type} (r : ℕ) : TraceStep T → Prop
  | .writeStep r' _ => r' ≠ r
  | _ => True

/-- The storage trace of `LinearFlipout.forward`
(linear.py lines 319-359), one `TraceStep` per torch operation that
creates or overwrites a tensor, in source order.  Cell addresses of
intermediates are the deterministic allocator offsets from `h0.next`;
`xr muW rhoW epsW` are the caller's input cell and the layer's weight
parameter/buffer cells, `biasRefs` the optional
`(mu_bias, rho_bias, eps_bias)` cells.  The pure `kl_div` computations
only read and are not traced. -/
def LinearFlipout.forwardTrace {T : Type}
    (linT : T → T → Option T → T) (sgnT softT : T → T)
    (mulT addT : T → T → T) (h0 : Heap T)
    (xr muW rhoW epsW : ℕ) (biasRefs : Option (ℕ × ℕ × ℕ))
    (freshW freshB u1 u2 : T) : List (TraceStep T) :=
  let sigma := h0.next
  let delta := h0.next + 1
  match biasRefs with
  | some (muB, rhoB, epsB) =>
      let sigmaB := h0.next + 2
      let biasA := h0.next + 3
      let outputs := h0.next + 4
      let clone1 := h0.next + 5
      let signIn := h0.next + 6
      let clone2 := h0.next + 7
      let signOut := h0.next + 8
      let xTmp := h0.next + 9
      let ptmp := h0.next + 10
      let pert := h0.next + 11
      [ .allocStep (fun h => softT (h.read rhoW)),            -- sigma_weight
        .writeStep epsW (fun _ => freshW),                    -- eps_weight.data.normal_()
        .allocStep (fun h => mulT (h.read sigma) (h.read epsW)),   -- delta_weight
        .allocStep (fun h => softT (h.read rhoB)),            -- sigma_bias
        .writeStep epsB (fun _ => freshB),                    -- eps_bias.data.normal_()
        .allocStep (fun h => mulT (h.read sigmaB) (h.read epsB)),  -- bias
        .allocStep (fun h =>
          linT (h.read xr) (h.read muW) (some (h.read muB))), -- outputs
        .allocWriteStep (fun h => h.read xr) (fun _ => u1),   -- x.clone().uniform_(-1, 1)
        .allocStep (fun h => sgnT (h.read clone1)),           -- sign_input
        .allocWriteStep (fun h => h.read outputs) (fun _ => u2),  -- outputs.clone().uniform_(-1, 1)
        .allocStep (fun h => sgnT (h.read clone2)),           -- sign_output
        .allocStep (fun h => mulT (h.read xr) (h.read signIn)),   -- x_tmp = x * sign_input
        .allocStep (fun h =>
          linT (h.read xTmp) (h.read delta) (some (h.read biasA))),  -- perturbed_outputs_tmp
        .allocStep (fun h => mulT (h.read ptmp) (h.read signOut)),   -- perturbed_outputs
        .allocStep (fun h => addT (h.read outputs) (h.read pert)) ]  -- out
  | none =>
      let outputs := h0.next + 2
      let clone1 := h0.next + 3
      let signIn := h0.next + 4
      let clone2 := h0.next + 5
      let signOut := h0.next + 6
      let xTmp := h0.next + 7
      let ptmp := h0.next + 8
      let pert := h0.next + 9
      [ .allocStep (fun h => softT (h.read rhoW)),            -- sigma_weight
        .writeStep epsW (fun _ => freshW),                    -- eps_weight.data.normal_()
        .allocStep (fun h => mulT (h.read sigma) (h.read epsW)),   -- delta_weight
        .allocStep (fun h => linT (h.read xr) (h.read muW) none),  -- outputs
        .allocWriteStep (fun h => h.read xr) (fun _ => u1),   -- x.clone().uniform_(-1, 1)
        .allocStep (fun h => sgnT (h.read clone1)),           -- sign_input
        .allocWriteStep (fun h => h.read outputs) (fun _ => u2),  -- outputs.clone().uniform_(-1, 1)
        .allocStep (fun h => sgnT (h.read clone2)),           -- sign_output
        .allocStep (fun h => mulT (h.read xr) (h.read signIn)),   -- x_tmp = x * sign_input
        .allocStep (fun h => linT (h.read xTmp) (h.read delta) none),  -- perturbed_outputs_tmp
        .allocStep (fun h => mulT (h.read ptmp) (h.read signOut)),   -- perturbed_outputs
        .allocStep (fun h => addT (h.read outputs) (h.read pert)) ]  -- out

/-- The storage trace of the Flipout conv forward bodies
(e.g. `Conv1dFlipout.forward`, conv.py lines 1291-1360), same conventions
as `LinearFlipout.forwardTrace`, in the conv source order: mean path
first, then the sign draws, then the perturbation. -/
def ConvFlipout.forwardTrace {T : Type}
    (convT : T → T → Option T → T) (sgnT softT : T → T)
    (mulT addT : T → T → T) (h0 : Heap T)
    (xr muW rhoW epsW : ℕ) (biasRefs : Option (ℕ × ℕ × ℕ))
    (freshW freshB u1 u2 : T) : List (TraceStep T) :=
  let outputs := h0.next
  let clone1 := h0.next + 1
  let signIn := h0.next + 2
  let clone2 := h0.next + 3
  let signOut := h0.next + 4
  let sigma := h0.next + 5
  let delta := h0.next + 6
  match biasRefs with
  | some (muB, rhoB, epsB) =>
      let sigmaB := h0.next + 7
      let biasA := h0.next + 8
      let xTmp := h0.next + 9
      let ptmp := h0.next + 10
      let pert := h0.next + 11
      [ .allocStep (fun h =>
          convT (h.read xr) (h.read muW) (some (h.read muB))),  -- outputs
        .allocWriteStep (fun h => h.read xr) (fun _ => u1),   -- x.clone().uniform_(-1, 1)
        .allocStep (fun h => sgnT (h.read clone1)),           -- sign_input
        .allocWriteStep (fun h => h.read outputs) (fun _ => u2),  -- outputs.clone().uniform_(-1, 1)
        .allocStep (fun h => sgnT (h.read clone2)),           -- sign_output
        .allocStep (fun h => softT (h.read rhoW)),            -- sigma_weight
        .writeStep epsW (fun _ => freshW),                    -- eps_kernel.data.normal_()
        .allocStep (fun h => mulT (h.read sigma) (h.read epsW)),   -- delta_kernel
        .allocStep (fun h => softT (h.read rhoB)),            -- sigma_bias
        .writeStep epsB (fun _ => freshB),                    -- eps_bias.data.normal_()
        .allocStep (fun h => mulT (h.read sigmaB) (h.read epsB)),  -- bias
        .allocStep (fun h => mulT (h.read xr) (h.read signIn)),   -- x_tmp = x * sign_input
        .allocStep (fun h =>
          convT (h.read xTmp) (h.read delta) (some (h.read biasA))),  -- perturbed_outputs_tmp
        .allocStep (fun h => mulT (h.read ptmp) (h.read signOut)),   -- perturbed_outputs
        .allocStep (fun h => addT (h.read outputs) (h.read pert)) ]  -- out
  | none =>
      let xTmp := h0.next + 7
      let ptmp := h0.next + 8
      let pert := h0.next + 9
      [ .allocStep (fun h => convT (h.read xr) (h.read muW) none),  -- outputs
        .allocWriteStep (fun h => h.read xr) (fun _ => u1),   -- x.clone().uniform_(-1, 1)
        .allocStep (fun h => sgnT (h.read clone1)),           -- sign_input
        .allocWriteStep (fun h => h.read outputs) (fun _ => u2),  -- outputs.clone().uniform_(-1, 1)
        .allocStep (fun h => sgnT (h.read clone2)),           -- sign_output
        .allocStep (fun h => softT (h.read rhoW)),            -- sigma_weight
        .writeStep epsW (fun _ => freshW),                    -- eps_kernel.data.normal_()
        .allocStep (fun h => mulT (h.read sigma) (h.read epsW)),   -- delta_kernel
        .allocStep (fun h => mulT (h.read xr) (h.read signIn)),   -- x_tmp = x * sign_input
        .allocStep (fun h => convT (h.read xTmp) (h.read delta) none),  -- perturbed_outputs_tmp
        .allocStep (fun h => mulT (h.read ptmp) (h.read signOut)),   -- perturbed_outputs
        .allocStep (fun h => addT (h.read outputs) (h.read pert)) ]  -- out
/-! ## The DMGPcifar network (src/dmgp/models/cifar_dgp_variational.py)

The five variational layers (`conv1`, `conv2`, `fc0`, `fc1`, `fc2`) are the
reparameterization layers embedded above.  The purely deterministic stages
of the pipeline (`F.relu`, `F.max_pool2d`, `Dropout2d`, `torch.flatten`,
the two `AMK` sparse-GP layers — whose code is not under src/ — and
`F.log_softmax`) are abstract function parameters: the claims about this
model concern only the KL accumulation and the final log-softmax.  Tensor
index types of the intermediate stages are abstract. -/

/-- The random initialization draws consumed by one layer constructor. -/
structure LayerDraws (ιw ιb : Type) where
  muDraw : ιw → ℚ
  rhoDraw : ιw → ℚ
  epsW0 : ιw → ℚ
  muBiasDraw : ιb → ℚ
  rhoBiasDraw : ιb → ℚ
  epsB0 : ιb → ℚ

/-- The fresh standard-normal draws consumed by one forward call. -/
structure LayerNoise (ιw ιb : Type) where
  w : ιw → ℚ
  b : ιb → ℚ

/-- The five variational layers owned by a `DMGPcifar` instance. -/
structure DMGPState (W1 B1 W2 B2 W4 B4 W5 B5 W6 B6 : Type) where
  conv1 : VarLayerState W1 B1
  conv2 : VarLayerState W2 B2
  fc0 : VarLayerState W4 B4
  fc1 : VarLayerState W5 B5
  fc2 : VarLayerState W6 B6

/-- `DMGPcifar.__init__`: every variational layer is built with
`prior_mean = 0.0`, `prior_variance = 1.0` (the module-level `prior_mu`,
`prior_sigma`) and `bias=True` (the default for the two conv layers,
explicit for the three fc layers). -/
def DMGPcifar.init {W1 B1 W2 B2 W4 B4 W5 B5 W6 B6 : Type}
    (d1 : LayerDraws W1 B1) (d2 : LayerDraws W2 B2) (d3 : LayerDraws W4 B4)
    (d4 : LayerDraws W5 B5) (d5 : LayerDraws W6 B6) :
    DMGPState W1 B1 W2 B2 W4 B4 W5 B5 W6 B6 :=
  { conv1 := varLayerInit 0 1 true d1.muDraw d1.rhoDraw d1.epsW0
      d1.muBiasDraw d1.rhoBiasDraw d1.epsB0
    conv2 := varLayerInit 0 1 true d2.muDraw d2.rhoDraw d2.epsW0
      d2.muBiasDraw d2.rhoBiasDraw d2.epsB0
    fc0 := varLayerInit 0 1 true d3.muDraw d3.rhoDraw d3.epsW0
      d3.muBiasDraw d3.rhoBiasDraw d3.epsB0
    fc1 := varLayerInit 0 1 true d4.muDraw d4.rhoDraw d4.epsW0
      d4.muBiasDraw d4.rhoBiasDraw d4.epsB0
    fc2 := varLayerInit 0 1 true d5.muDraw d5.rhoDraw d5.epsW0
      d5.muBiasDraw d5.rhoBiasDraw d5.epsB0 }

/-- `DMGPcifar.forward` (model file lines 126-149): `kl_sum` starts at `0`
and accumulates the KL of each of the five layer calls; between layers
the deterministic stages are applied; the returned output is
`F.log_softmax` of the last layer's output.  Each `x, kl = layer(x)`
destructuring fails at run time if the layer returned a bare output
instead of a pair, which the `Except` channel models. -/
def DMGPcifar.forward {X0 Y1 Y2 X4 Y4 X5 Y5 X6 Y6 : Type}
    {W1 B1 W2 B2 W4 B4 W5 B5 W6 B6 : Type}
    [Fintype W1] [Fintype B1] [Fintype W2] [Fintype B2]
    [Fintype W4] [Fintype B4] [Fintype W5] [Fintype B5]
    [Fintype W6] [Fintype B6]
    (lg lg1p ex : ℚ → ℚ)
    (op1 : (X0 → ℚ) → (W1 → ℚ) → Option (B1 → ℚ) → (Y1 → ℚ))
    (op2 : (Y1 → ℚ) → (W2 → ℚ) → Option (B2 → ℚ) → (Y2 → ℚ))
    (opFc0 : (X4 → ℚ) → (W4 → ℚ) → Option (B4 → ℚ) → (Y4 → ℚ))
    (opFc1 : (X5 → ℚ) → (W5 → ℚ) → Option (B5 → ℚ) → (Y5 → ℚ))
    (opFc2 : (X6 → ℚ) → (W6 → ℚ) → Option (B6 → ℚ) → (Y6 → ℚ))
    (reluA : (Y1 → ℚ) → (Y1 → ℚ)) (reluB : (Y2 → ℚ) → (Y2 → ℚ))
    (maxPool2d : (Y2 → ℚ) → (Y2 → ℚ)) (dropout1 : (Y2 → ℚ) → (Y2 → ℚ))
    (flatten : (Y2 → ℚ) → (X4 → ℚ))
    (gp1 : (Y4 → ℚ) → (X5 → ℚ)) (gp2 : (Y5 → ℚ) → (X6 → ℚ))
    (logSoftmax : (Y6 → ℚ) → (Y6 → ℚ))
    (m : DMGPState W1 B1 W2 B2 W4 B4 W5 B5 W6 B6) (x : X0 → ℚ)
    (n1 : LayerNoise W1 B1) (n2 : LayerNoise W2 B2)
    (n3 : LayerNoise W4 B4) (n4 : LayerNoise W5 B5)
    (n5 : LayerNoise W6 B6) :
    Except String ((Y6 → ℚ) × ℚ) :=
  let kl_sum : ℚ := 0
  let r1 := reparamForward lg lg1p ex op1 m.conv1 x n1.w n1.b true
  match r1.kl with
  | none => .error "ValueError: not enough values to unpack"
  | some kl1 =>
  let kl_sum := kl_sum + kl1
  let x1 := reluA r1.out
  let r2 := reparamForward lg lg1p ex op2 m.conv2 x1 n2.w n2.b true
  match r2.kl with
  | none => .error "ValueError: not enough values to unpack"
  | some kl2 =>
  let kl_sum := kl_sum + kl2
  let x2 := flatten (dropout1 (maxPool2d (reluB r2.out)))
  let r3 := reparamForward lg lg1p ex opFc0 m.fc0 x2 n3.w n3.b true
  match r3.kl with
  | none => .error "ValueError: not enough values to unpack"
  | some kl3 =>
  let kl_sum := kl_sum + kl3
  let x3 := gp1 r3.out
  let r4 := reparamForward lg lg1p ex opFc1 m.fc1 x3 n4.w n4.b true
  match r4.kl with
  | none => .error "ValueError: not enough values to unpack"
  | some kl4 =>
  let kl_sum := kl_sum + kl4
  let x4 := gp2 r4.out
  let r5 := reparamForward lg lg1p ex opFc2 m.fc2 x4 n5.w n5.b true
  match r5.kl with
  | none => .error "ValueError: not enough values to unpack"
  | some kl5 =>
  let kl_sum := kl_sum + kl5
  let output := logSoftmax r5.out
  .ok (output, kl_sum)

/-! ## Lemmas about the storage model -/

theorem Heap.read_write_ne {T : Type} (h : Heap T) (r' : ℕ) (v : T) (r : ℕ)
    (hne : r' ≠ r) : (h.write r' v).read r = h.read r := by
  simp [Heap.write, Heap.read, Ne.symm hne]

theorem Heap.read_alloc_snd {T : Type} (h : Heap T) (v : T) (r : ℕ)
    (hr : r < h.next) : ((h.alloc v).2).read r = h.read r := by
  simp [Heap.alloc, Heap.read, Nat.ne_of_lt hr]

theorem TraceStep.exec_frame {T : Type} (s : TraceStep T) (h : Heap T)
    (r : ℕ) (hr : r < h.next) (hw : s.writesOutside r) :
    (s.exec h).read r = h.read r ∧ h.next ≤ (s.exec h).next := by
  cases s with
  | allocStep v =>
      exact ⟨Heap.read_alloc_snd h _ r hr, Nat.le_succ _⟩
  | writeStep r' v =>
      exact ⟨Heap.read_write_ne h r' _ r hw, le_refl _⟩
  | allocWriteStep v0 v1 =>
      constructor
      · show (((h.alloc _).2).write (h.alloc _).1 _).read r = h.read r
        rw [Heap.read_write_ne _ _ _ _ (by simp [Heap.alloc]; omega)]
        exact Heap.read_alloc_snd h _ r hr
      · show h.next ≤ (((h.alloc _).2).write _ _).next
        simp [Heap.alloc, Heap.write]

theorem execTrace_frame {T : Type} (r : ℕ) (steps : List (TraceStep T)) :
    ∀ h : Heap T, r < h.next → (∀ s ∈ steps, s.writesOutside r) →
    (execTrace h steps).read r = h.read r ∧ r < (execTrace h steps).next := by
  induction steps with
  | nil => exact fun h hr _ => ⟨rfl, hr⟩
  | cons s rest ih =>
      intro h hr hw
      have h1 := TraceStep.exec_frame s h r hr (hw s (by simp))
      have h2 := ih (s.exec h) (lt_of_lt_of_le hr h1.2)
        (fun s' hs' => hw s' (by simp [hs']))
      exact ⟨h2.1.trans h1.1, h2.2⟩

/-- C10: a Flipout forward call leaves the caller's input tensor unchanged:
for both the linear and the conv Flipout storage traces, every in-place
write targets either a fresh cell (the clones filled by
`.uniform_(-1, 1)`) or the layer's own `eps` buffers, so if the input cell
is a live cell distinct from the layer's `eps` buffers, its contents after
the forward call equal its contents before. -/
theorem flipout_forward_preserves_caller_input {T : Type}
    (linT convT : T → T → Option T → T) (sgnT softT : T → T)
    (mulT addT : T → T → T) (h0 : Heap T)
    (xr muW rhoW epsW : ℕ) (biasRefs : Option (ℕ × ℕ × ℕ))
    (freshW freshB u1 u2 : T)
    (hx : xr < h0.next) (hW : epsW ≠ xr)
    (hB : ∀ mb rb eb, biasRefs = some (mb, rb, eb) → eb ≠ xr) :
    (execTrace h0 (LinearFlipout.forwardTrace linT sgnT softT mulT addT h0
        xr muW rhoW epsW biasRefs freshW freshB u1 u2)).read xr = h0.read xr
    ∧ (execTrace h0 (ConvFlipout.forwardTrace convT sgnT softT mulT addT h0
        xr muW rhoW epsW biasRefs freshW freshB u1 u2)).read xr
        = h0.read xr := by
  cases biasRefs with
  | none =>
      constructor
      · refine (execTrace_frame xr _ h0 hx ?_).1
        intro s hs
        simp only [LinearFlipout.forwardTrace] at hs
        fin_cases hs <;> simp [TraceStep.writesOutside, hW]
      · refine (execTrace_frame xr _ h0 hx ?_).1
        intro s hs
        simp only [ConvFlipout.forwardTrace] at hs
        fin_cases hs <;> simp [TraceStep.writesOutside, hW]
  | some t =>
      obtain ⟨mb, rb, eb⟩ := t
      have hB2 : eb ≠ xr := hB mb rb eb rfl
      constructor
      · refine (execTrace_frame xr _ h0 hx ?_).1
        intro s hs
        simp only [LinearFlipout.forwardTrace] at hs
        fin_cases hs <;> simp [TraceStep.writesOutside, hW, hB2]
      · refine (execTrace_frame xr _ h0 hx ?_).1
        intro s hs
        simp only [ConvFlipout.forwardTrace] at hs
        fin_cases hs <;> simp [TraceStep.writesOutside, hW, hB2]

/-- Witness for C10 at a concrete heap: input in cell 0, `eps` buffers in
cells 1 and 2, three live cells. -/
theorem flipout_forward_preserves_caller_input_witness :
    (0 : ℕ) < (⟨fun _ => (0 : ℚ), 3⟩ : Heap ℚ).next ∧ (1 : ℕ) ≠ 0 ∧
    ((execTrace (⟨fun _ => (0 : ℚ), 3⟩ : Heap ℚ)
        (LinearFlipout.forwardTrace (fun a _ _ => a) id id (fun a _ => a)
          (fun a _ => a) (⟨fun _ => (0 : ℚ), 3⟩ : Heap ℚ) 0 0 0 1
          (some (0, 0, 2)) 0 0 0 0)).read 0
      = (⟨fun _ => (0 : ℚ), 3⟩ : Heap ℚ).read 0
    ∧ (execTrace (⟨fun _ => (0 : ℚ), 3⟩ : Heap ℚ)
        (ConvFlipout.forwardTrace (fun a _ _ => a) id id (fun a _ => a)
          (fun a _ => a) (⟨fun _ => (0 : ℚ), 3⟩ : Heap ℚ) 0 0 0 1
          (some (0, 0, 2)) 0 0 0 0)).read 0
      = (⟨fun _ => (0 : ℚ), 3⟩ : Heap ℚ).read 0) :=
  ⟨by decide, by decide,
   flipout_forward_preserves_caller_input (fun a _ _ => a) (fun a _ _ => a)
     id id (fun a _ => a) (fun a _ => a) (⟨fun _ => (0 : ℚ), 3⟩ : Heap ℚ)
     0 0 0 1 (some (0, 0, 2)) 0 0 0 0 (by decide) (by decide)
     (by
       intro mb rb eb h
       simp only [Option.some.injEq, Prod.mk.injEq] at h
       omega)⟩

/-! ## Claim theorems on the value-level embedding -/

/-- C2: every Reparameterization layer forward call applies the
deterministic operation exactly once, with
`weight = mu + softplus(rho) * eps` and, when the bias is present,
`bias = mu_bias + softplus(rho_bias) * eps_bias`, and the returned output
is `op(input, weight, bias)`.  Stated for the shared reparameterization
body with the operation abstract (covering all seven layers), for the
bias-absent case, and for the concrete `LinearReparameterization`
instance. -/
theorem reparam_forward_samples_weight_and_applies_op_once
    {ιx ιw ιb ιy ιx2 ιw2 ιb2 ιy2 : Type}
    [Fintype ιw] [Fintype ιb] [Fintype ιw2] [Fintype ιb2] {n d p : ℕ}
    (lg lg1p ex : ℚ → ℚ)
    (op : (ιx → ℚ) → (ιw → ℚ) → Option (ιb → ℚ) → (ιy → ℚ))
    (op2 : (ιx2 → ℚ) → (ιw2 → ℚ) → Option (ιb2 → ℚ) → (ιy2 → ℚ))
    (muW rhoW epsW pwm pws : ιw → ℚ) (bg : BiasGroup ιb) (flag : Bool)
    (x : ιx → ℚ) (freshW : ιw → ℚ) (freshB : ιb → ℚ) (rk : Bool)
    (muW2 rhoW2 epsW2 pwm2 pws2 : ιw2 → ℚ) (flag2 : Bool)
    (x2 : ιx2 → ℚ) (freshW2 : ιw2 → ℚ) (freshB2 : ιb2 → ℚ) (rk2 : Bool)
    (muL rhoL epsL pwmL pwsL : Fin p × Fin d → ℚ) (bgL : BiasGroup (Fin p))
    (flagL : Bool) (xL : Fin n × Fin d → ℚ) (fWL : Fin p × Fin d → ℚ)
    (fBL : Fin p → ℚ) (rkL : Bool) :
    ((reparamForward lg lg1p ex op
        ⟨muW, rhoW, epsW, pwm, pws, some bg, flag⟩ x freshW freshB rk).out
      = op x (muW + softplusT lg1p ex rhoW * freshW)
          (some (bg.mu_bias + softplusT lg1p ex bg.rho_bias * freshB))
     ∧ (reparamForward lg lg1p ex op
        ⟨muW, rhoW, epsW, pwm, pws, some bg, flag⟩ x freshW freshB
          rk).opCalls = 1)
    ∧ ((reparamForward lg lg1p ex op2
        ⟨muW2, rhoW2, epsW2, pwm2, pws2, none, flag2⟩ x2 freshW2 freshB2
          rk2).out
      = op2 x2 (muW2 + softplusT lg1p ex rhoW2 * freshW2) none
     ∧ (reparamForward lg lg1p ex op2
        ⟨muW2, rhoW2, epsW2, pwm2, pws2, none, flag2⟩ x2 freshW2 freshB2
          rk2).opCalls = 1)
    ∧ ((LinearReparameterization.forward lg lg1p ex
        ⟨muL, rhoL, epsL, pwmL, pwsL, some bgL, flagL⟩ xL fWL fBL rkL).out
      = linearOp xL (muL + softplusT lg1p ex rhoL * fWL)
          (some (bgL.mu_bias + softplusT lg1p ex bgL.rho_bias * fBL))
     ∧ (LinearReparameterization.forward lg lg1p ex
        ⟨muL, rhoL, epsL, pwmL, pwsL, some bgL, flagL⟩ xL fWL fBL
          rkL).opCalls = 1) := by
  refine ⟨⟨?_, rfl⟩, ⟨?_, rfl⟩, ⟨?_, rfl⟩⟩ <;>
    simp [reparamForward, LinearReparameterization.forward, applyOp]

/-- C1: every Flipout layer forward call returns
`op(x, mu_weight, mu_bias) + sign_output * op(x * sign_input,
sigma_weight * eps_weight, sigma_bias * eps_bias)` — the perturbed pass
receives the raw bias draw `sigma_bias * eps_bias`, `mu_bias` appears only
in the mean path — and the deterministic operation is applied exactly
twice.  Stated for `LinearFlipout`, the shared conv Flipout body (covering
`Conv{1,2,3}dFlipout` and `ConvTranspose{1,2}dFlipout`), the bias-absent
case, and `ConvTranspose3dFlipout` (on its normal `return_kl = true`
path). -/
theorem flipout_forward_mean_plus_signed_perturbation_two_ops
    {ιx ιw ιb ιy : Type} [Fintype ιw] [Fintype ιb] {n d p : ℕ}
    (lg lg1p ex : ℚ → ℚ)
    (op : (ιx → ℚ) → (ιw → ℚ) → Option (ιb → ℚ) → (ιy → ℚ))
    (muW rhoW epsW pwm pws : ιw → ℚ) (bg : BiasGroup ιb) (flag : Bool)
    (x : ιx → ℚ) (freshW : ιw → ℚ) (freshB : ιb → ℚ)
    (u1 : ιx → ℚ) (u2 : ιy → ℚ) (rk : Bool)
    (muL rhoL epsL pwmL pwsL : Fin p × Fin d → ℚ) (bgL : BiasGroup (Fin p))
    (flagL : Bool) (xL : Fin n × Fin d → ℚ) (fWL : Fin p × Fin d → ℚ)
    (fBL : Fin p → ℚ) (uL1 : Fin n × Fin d → ℚ) (uL2 : Fin n × Fin p → ℚ)
    (rkL : Bool) :
    ((LinearFlipout.forward lg lg1p ex
        ⟨muL, rhoL, epsL, pwmL, pwsL, some bgL, flagL⟩ xL fWL fBL uL1 uL2
          rkL).out
      = linearOp xL muL (some bgL.mu_bias)
        + tensorSign uL2 *
            linearOp (xL * tensorSign uL1) (softplusT lg1p ex rhoL * fWL)
              (some (softplusT lg1p ex bgL.rho_bias * fBL))
     ∧ (LinearFlipout.forward lg lg1p ex
        ⟨muL, rhoL, epsL, pwmL, pwsL, some bgL, flagL⟩ xL fWL fBL uL1 uL2
          rkL).opCalls = 2)
    ∧ ((ConvFlipout.forward lg lg1p ex op
        ⟨muW, rhoW, epsW, pwm, pws, some bg, flag⟩ x freshW freshB u1 u2
          rk).out
      = op x muW (some bg.mu_bias)
        + tensorSign u2 *
            op (x * tensorSign u1) (softplusT lg1p ex rhoW * freshW)
              (some (softplusT lg1p ex bg.rho_bias * freshB))
     ∧ (ConvFlipout.forward lg lg1p ex op
        ⟨muW, rhoW, epsW, pwm, pws, some bg, flag⟩ x freshW freshB u1 u2
          rk).opCalls = 2)
    ∧ ((ConvFlipout.forward lg lg1p ex op
        ⟨muW, rhoW, epsW, pwm, pws, none, flag⟩ x freshW freshB u1 u2
          rk).out
      = op x muW none
        + tensorSign u2 *
            op (x * tensorSign u1) (softplusT lg1p ex rhoW * freshW) none
     ∧ (ConvFlipout.forward lg lg1p ex op
        ⟨muW, rhoW, epsW, pwm, pws, none, flag⟩ x freshW freshB u1 u2
          rk).opCalls = 2)
    ∧ ((ConvTranspose3dFlipout.forward lg lg1p ex op
        ⟨muW, rhoW, epsW, pwm, pws, some bg, false⟩ x freshW freshB u1 u2
          true).map (fun r => r.out)
      = .ok (op x muW (some bg.mu_bias)
        + tensorSign u2 *
            op (x * tensorSign u1) (softplusT lg1p ex rhoW * freshW)
              (some (softplusT lg1p ex bg.rho_bias * freshB)))
     ∧ (ConvTranspose3dFlipout.forward lg lg1p ex op
        ⟨muW, rhoW, epsW, pwm, pws, some bg, false⟩ x freshW freshB u1 u2
          true).map (fun r => r.opCalls) = .ok 2) := by
  refine ⟨⟨?_, rfl⟩, ⟨?_, rfl⟩, ⟨?_, rfl⟩, ?_, ?_⟩
  · simp only [LinearFlipout.forward, applyOp]
    ring
  · simp only [ConvFlipout.forward, applyOp]
    ring
  · simp only [ConvFlipout.forward, applyOp]
    ring
  · simp only [ConvTranspose3dFlipout.forward, applyOp, Except.map]
    norm_num
    ring
  · simp only [ConvTranspose3dFlipout.forward, applyOp, Except.map]
    norm_num

/-- C3 counterexample: `Conv1dFlipout.__init__` performs no `groups`
divisibility validation — with `in_channels = 4, groups = 3`
(and `4 % 3 ≠ 0`) construction succeeds instead of failing. -/
theorem conv1dFlipout_init_accepts_invalid_groups :
    (4 : ℕ) % 3 ≠ 0 ∧
    Conv1dFlipout.init 4 8 3 3 0 1 true (fun _ => 0) (fun _ => 0)
        (fun _ => 0) (fun _ => 0) (fun _ => 0) (fun _ => 0)
      = .ok (varLayerInit 0 1 true (fun _ => 0) (fun _ => 0) (fun _ => 0)
          (fun _ => 0) (fun _ => 0) (fun _ => 0)) :=
  ⟨by decide, rfl⟩

/-- C3 amended: the Reparameterization conv constructors raise the
invalid-configuration error before allocating any tensor whenever
`in_channels % groups ≠ 0` or `out_channels % groups ≠ 0` (in particular
`Conv2dReparameterization` with `in_channels = 4, groups = 3`), while the
Flipout conv constructors perform no such validation and always construct
the layer. -/
theorem conv_groups_validation
    (inC outC k g : ℕ) (pm pv : ℚ) (bias : Bool)
    (muD rhoD e0 : Fin outC × Fin (inC / g) × Fin k × Fin k → ℚ)
    (mbD rbD eb0 : Fin outC → ℚ)
    (muD1 rhoD1 e01 : Fin outC × Fin (inC / g) × Fin k → ℚ)
    (mbD1 rbD1 eb01 : Fin outC → ℚ)
    (hbad : inC % g ≠ 0 ∨ outC % g ≠ 0) :
    Conv2dReparameterization.init inC outC k g pm pv bias muD rhoD e0
        mbD rbD eb0 = .error .invalidInChannels
    ∧ Conv1dFlipout.init inC outC k g pm pv bias muD1 rhoD1 e01
        mbD1 rbD1 eb01
      = .ok (varLayerInit pm pv bias muD1 rhoD1 e01 mbD1 rbD1 eb01) := by
  constructor
  · simp only [Conv2dReparameterization.init]
    rcases hbad with h | h
    · rw [if_pos h]
    · by_cases h1 : inC % g ≠ 0
      · rw [if_pos h1]
      · rw [if_neg h1, if_pos h]
  · rfl

/-- Witness for C3 amended at `in_channels = 4, out_channels = 8,
groups = 3`. -/
theorem conv_groups_validation_witness :
    ((4 : ℕ) % 3 ≠ 0 ∨ (8 : ℕ) % 3 ≠ 0) ∧
    (Conv2dReparameterization.init 4 8 3 3 0 1 true (fun _ => 0)
        (fun _ => 0) (fun _ => 0) (fun _ => 0) (fun _ => 0) (fun _ => 0)
      = .error .invalidInChannels
    ∧ Conv1dFlipout.init 4 8 3 3 0 1 true (fun _ => 0) (fun _ => 0)
        (fun _ => 0) (fun _ => 0) (fun _ => 0) (fun _ => 0)
      = .ok (varLayerInit 0 1 true (fun _ => 0) (fun _ => 0) (fun _ => 0)
          (fun _ => 0) (fun _ => 0) (fun _ => 0))) :=
  ⟨by decide,
   conv_groups_validation 4 8 3 3 0 1 true _ _ _ _ _ _ _ _ _ _ _ _
     (by decide)⟩

/-- C4: the KL value returned by `forward(input, return_kl=true)` equals
`kl_loss()` on the same parameter state, and — because a forward call
overwrites only the noise buffers, never `mu` or `rho` — a second forward
call on the state left by the first still returns that same KL while the
sampled output varies with the noise.  Stated for the shared
reparameterization body, the shared conv Flipout body, and
`LinearFlipout`. -/
theorem forward_kl_equals_kl_loss
    {ιx ιw ιb ιy : Type} [Fintype ιw] [Fintype ιb] {n d p : ℕ}
    (lg lg1p ex : ℚ → ℚ)
    (op : (ιx → ℚ) → (ιw → ℚ) → Option (ιb → ℚ) → (ιy → ℚ))
    (muW rhoW epsW pwm pws : ιw → ℚ) (obg : Option (BiasGroup ιb))
    (x x2 : ιx → ℚ) (fW fW2 : ιw → ℚ) (fB fB2 : ιb → ℚ)
    (u1 u3 : ιx → ℚ) (u2 u4 : ιy → ℚ)
    (muL rhoL epsL pwmL pwsL : Fin p × Fin d → ℚ)
    (obgL : Option (BiasGroup (Fin p)))
    (xL xL2 : Fin n × Fin d → ℚ) (fWL fWL2 : Fin p × Fin d → ℚ)
    (fBL fBL2 : Fin p → ℚ) (uA uC : Fin n × Fin d → ℚ)
    (uB uD : Fin n × Fin p → ℚ) :
    let s : VarLayerState ιw ιb := ⟨muW, rhoW, epsW, pwm, pws, obg, false⟩
    let sL : VarLayerState (Fin p × Fin d) (Fin p) :=
      ⟨muL, rhoL, epsL, pwmL, pwsL, obgL, false⟩
    ((reparamForward lg lg1p ex op s x fW fB true).kl
        = some (VariationalLayer.kl_loss lg lg1p ex s)
      ∧ (reparamForward lg lg1p ex op
          ((reparamForward lg lg1p ex op s x fW fB true).state)
          x2 fW2 fB2 true).kl
        = some (VariationalLayer.kl_loss lg lg1p ex s))
    ∧ ((ConvFlipout.forward lg lg1p ex op s x fW fB u1 u2 true).kl
        = some (VariationalLayer.kl_loss lg lg1p ex s)
      ∧ (ConvFlipout.forward lg lg1p ex op
          ((ConvFlipout.forward lg lg1p ex op s x fW fB u1 u2 true).state)
          x2 fW2 fB2 u3 u4 true).kl
        = some (VariationalLayer.kl_loss lg lg1p ex s))
    ∧ ((LinearFlipout.forward lg lg1p ex sL xL fWL fBL uA uB true).kl
        = some (VariationalLayer.kl_loss lg lg1p ex sL)
      ∧ (LinearFlipout.forward lg lg1p ex
          ((LinearFlipout.forward lg lg1p ex sL xL fWL fBL uA uB true).state)
          xL2 fWL2 fBL2 uC uD true).kl
        = some (VariationalLayer.kl_loss lg lg1p ex sL)) := by
  cases obg <;> cases obgL <;>
    simp [reparamForward, ConvFlipout.forward, LinearFlipout.forward,
      VariationalLayer.kl_loss, applyOp]

/-- C5 (code bug): with the bias present and `return_kl` forced to `false`
(the `dnn_to_bnn_flag` deterministic-mode override),
`ConvTranspose3dFlipout.forward` does not return the bare output — the
bias-branch KL update (conv.py line 2322) is outside the
`if return_kl:` guard, so the local `kl` is read before assignment and
the call raises.  This evaluates the embedded forward at such an input. -/
theorem convTranspose3dFlipout_forward_raises_when_kl_suppressed :
    ConvTranspose3dFlipout.forward id id id
      (fun _ _ _ => (fun _ => (0 : ℚ)))
      (⟨fun _ => 0, fun _ => 0, fun _ => 0, fun _ => 0, fun _ => 0,
        some ⟨fun _ => 0, fun _ => 0, fun _ => 0, fun _ => 0, fun _ => 0⟩,
        true⟩ : VarLayerState (Fin 1) (Fin 1))
      (fun _ => (0 : ℚ) : Fin 1 → ℚ) (fun _ => 0) (fun _ => 0)
      (fun _ => 0) ((fun _ => 0) : Fin 1 → ℚ) true
      = .error
          "UnboundLocalError: local variable kl referenced before assignment" :=
  rfl

/-- C6: a layer constructed with `bias=False` has every bias-related
parameter and buffer registered as `None` (the bias group is absent, not
zero), and `kl_loss` is exactly the weight-only KL term. -/
theorem bias_false_no_bias_parameters_and_weight_only_kl
    {ιw ιb : Type} [Fintype ιw] [Fintype ιb] (lg lg1p ex : ℚ → ℚ)
    (pm pv : ℚ) (muD rhoD e0 : ιw → ℚ) (mbD rbD eb0 : ιb → ℚ)
    (muW rhoW epsW pwm pws : ιw → ℚ) (flag : Bool) :
    (varLayerInit pm pv false muD rhoD e0 mbD rbD eb0 :
        VarLayerState ιw ιb).biasGroup = none
    ∧ VariationalLayer.kl_loss lg lg1p ex
        (⟨muW, rhoW, epsW, pwm, pws, none, flag⟩ : VarLayerState ιw ιb)
      = kl_div lg muW (softplusT lg1p ex rhoW) pwm pws
    ∧ VariationalLayer.kl_loss lg lg1p ex
        (varLayerInit pm pv false muD rhoD e0 mbD rbD eb0 :
          VarLayerState ιw ιb)
      = kl_div lg muD (softplusT lg1p ex rhoD)
          (fun _ => pm) (fun _ => pv) := by
  refine ⟨?_, rfl, ?_⟩ <;> simp [varLayerInit, VariationalLayer.kl_loss]

/-- C7: `sigma` is recomputed as `softplus(rho) = log1p(exp(rho))` from the
current `rho` at every forward and every `kl_loss` call and is never
cached (the layer state holds no `sigma`): after an external optimizer
update writes `r2` into `rho_weight`, the next `kl_loss` and the next
forward — both estimators — use `softplus(r2)`. -/
theorem sigma_recomputed_from_current_rho
    {ιx ιw ιb ιy : Type} [Fintype ιw] [Fintype ιb]
    (lg lg1p ex : ℚ → ℚ)
    (op : (ιx → ℚ) → (ιw → ℚ) → Option (ιb → ℚ) → (ιy → ℚ))
    (muW rhoW epsW pwm pws : ιw → ℚ) (bg : BiasGroup ιb) (flag : Bool)
    (r2 : ιw → ℚ) (x : ιx → ℚ) (fW : ιw → ℚ) (fB : ιb → ℚ)
    (u1 : ιx → ℚ) (u2 : ιy → ℚ) (rk : Bool) :
    let s : VarLayerState ιw ιb := ⟨muW, rhoW, epsW, pwm, pws, some bg, flag⟩
    VariationalLayer.kl_loss lg lg1p ex (updateRhoWeight s r2)
      = kl_div lg muW (softplusT lg1p ex r2) pwm pws
        + kl_div lg bg.mu_bias (softplusT lg1p ex bg.rho_bias)
            bg.prior_bias_mu bg.prior_bias_sigma
    ∧ (reparamForward lg lg1p ex op (updateRhoWeight s r2) x fW fB rk).out
      = op x (muW + softplusT lg1p ex r2 * fW)
          (some (bg.mu_bias + softplusT lg1p ex bg.rho_bias * fB))
    ∧ (ConvFlipout.forward lg lg1p ex op (updateRhoWeight s r2) x fW fB
          u1 u2 rk).out
      = op x muW (some bg.mu_bias)
        + tensorSign u2 *
            op (x * tensorSign u1) (softplusT lg1p ex r2 * fW)
              (some (softplusT lg1p ex bg.rho_bias * fB)) := by
  refine ⟨?_, ?_, ?_⟩
  · simp [updateRhoWeight, VariationalLayer.kl_loss]
  · simp [updateRhoWeight, reparamForward, applyOp]
  · simp only [updateRhoWeight, ConvFlipout.forward, applyOp]
    ring

/-- C8: at construction/initialization the prior buffers are
broadcast-filled with the constant scalars `prior_mean` /
`prior_variance`, and a forward call leaves every state component
unchanged except the noise buffers, which it overwrites with the fresh
draws (`mu`, `rho`, the priors and the flag are returned verbatim). -/
theorem priors_constant_and_forward_overwrites_only_noise
    {ιx ιw ιb ιy : Type} [Fintype ιw] [Fintype ιb]
    (lg lg1p ex : ℚ → ℚ)
    (op : (ιx → ℚ) → (ιw → ℚ) → Option (ιb → ℚ) → (ιy → ℚ))
    (pm pv : ℚ) (muD rhoD e0 : ιw → ℚ) (mbD rbD eb0 : ιb → ℚ)
    (muW rhoW epsW pwm pws : ιw → ℚ) (bg : BiasGroup ιb) (flag : Bool)
    (x : ιx → ℚ) (fW : ιw → ℚ) (fB : ιb → ℚ)
    (u1 : ιx → ℚ) (u2 : ιy → ℚ) (rk : Bool) :
    ((varLayerInit pm pv true muD rhoD e0 mbD rbD eb0 :
        VarLayerState ιw ιb).prior_weight_mu = fun _ => pm)
    ∧ ((varLayerInit pm pv true muD rhoD e0 mbD rbD eb0 :
        VarLayerState ιw ιb).prior_weight_sigma = fun _ => pv)
    ∧ ((varLayerInit pm pv true muD rhoD e0 mbD rbD eb0 :
        VarLayerState ιw ιb).biasGroup
        = some ⟨mbD, rbD, eb0, fun _ => pm, fun _ => pv⟩)
    ∧ ((reparamForward lg lg1p ex op
          ⟨muW, rhoW, epsW, pwm, pws, some bg, flag⟩ x fW fB rk).state
        = ⟨muW, rhoW, fW, pwm, pws,
            some ⟨bg.mu_bias, bg.rho_bias, fB, bg.prior_bias_mu,
              bg.prior_bias_sigma⟩, flag⟩)
    ∧ ((reparamForward lg lg1p ex op
          ⟨muW, rhoW, epsW, pwm, pws, none, flag⟩ x fW fB rk).state
        = ⟨muW, rhoW, fW, pwm, pws, none, flag⟩)
    ∧ ((ConvFlipout.forward lg lg1p ex op
          ⟨muW, rhoW, epsW, pwm, pws, some bg, flag⟩ x fW fB u1 u2 rk).state
        = ⟨muW, rhoW, fW, pwm, pws,
            some ⟨bg.mu_bias, bg.rho_bias, fB, bg.prior_bias_mu,
              bg.prior_bias_sigma⟩, flag⟩) := by
  refine ⟨rfl, rfl, ?_, rfl, rfl, rfl⟩
  simp [varLayerInit]

/-- C9: on every input, `DMGPcifar.forward` returns the pair whose second
component is exactly the sum of the KL terms of its five variational
layers (`conv1`, `conv2`, `fc0`, `fc1`, `fc2`), each equal to that
layer's `kl_loss`, with no other terms, and whose first component is the
log-softmax of the final layer's output. -/
theorem dmgp_forward_log_softmax_and_kl_sum
    {X0 Y1 Y2 X4 Y4 X5 Y5 X6 Y6 : Type}
    {W1 B1 W2 B2 W4 B4 W5 B5 W6 B6 : Type}
    [Fintype W1] [Fintype B1] [Fintype W2] [Fintype B2]
    [Fintype W4] [Fintype B4] [Fintype W5] [Fintype B5]
    [Fintype W6] [Fintype B6]
    (lg lg1p ex : ℚ → ℚ)
    (op1 : (X0 → ℚ) → (W1 → ℚ) → Option (B1 → ℚ) → (Y1 → ℚ))
    (op2 : (Y1 → ℚ) → (W2 → ℚ) → Option (B2 → ℚ) → (Y2 → ℚ))
    (opFc0 : (X4 → ℚ) → (W4 → ℚ) → Option (B4 → ℚ) → (Y4 → ℚ))
    (opFc1 : (X5 → ℚ) → (W5 → ℚ) → Option (B5 → ℚ) → (Y5 → ℚ))
    (opFc2 : (X6 → ℚ) → (W6 → ℚ) → Option (B6 → ℚ) → (Y6 → ℚ))
    (reluA : (Y1 → ℚ) → (Y1 → ℚ)) (reluB : (Y2 → ℚ) → (Y2 → ℚ))
    (maxPool2d : (Y2 → ℚ) → (Y2 → ℚ)) (dropout1 : (Y2 → ℚ) → (Y2 → ℚ))
    (flatten : (Y2 → ℚ) → (X4 → ℚ))
    (gp1 : (Y4 → ℚ) → (X5 → ℚ)) (gp2 : (Y5 → ℚ) → (X6 → ℚ))
    (logSoftmax : (Y6 → ℚ) → (Y6 → ℚ))
    (d1 : LayerDraws W1 B1) (d2 : LayerDraws W2 B2)
    (d3 : LayerDraws W4 B4) (d4 : LayerDraws W5 B5)
    (d5 : LayerDraws W6 B6) (x : X0 → ℚ)
    (n1 : LayerNoise W1 B1) (n2 : LayerNoise W2 B2)
    (n3 : LayerNoise W4 B4) (n4 : LayerNoise W5 B5)
    (n5 : LayerNoise W6 B6) :
    let m := DMGPcifar.init d1 d2 d3 d4 d5
    let r1 := reparamForward lg lg1p ex op1 m.conv1 x n1.w n1.b true
    let r2 := reparamForward lg lg1p ex op2 m.conv2 (reluA r1.out)
      n2.w n2.b true
    let r3 := reparamForward lg lg1p ex opFc0 m.fc0
      (flatten (dropout1 (maxPool2d (reluB r2.out)))) n3.w n3.b true
    let r4 := reparamForward lg lg1p ex opFc1 m.fc1 (gp1 r3.out)
      n4.w n4.b true
    let r5 := reparamForward lg lg1p ex opFc2 m.fc2 (gp2 r4.out)
      n5.w n5.b true
    DMGPcifar.forward lg lg1p ex op1 op2 opFc0 opFc1 opFc2 reluA reluB
        maxPool2d dropout1 flatten gp1 gp2 logSoftmax m x n1 n2 n3 n4 n5
      = .ok (logSoftmax r5.out,
          VariationalLayer.kl_loss lg lg1p ex m.conv1
          + VariationalLayer.kl_loss lg lg1p ex m.conv2
          + VariationalLayer.kl_loss lg lg1p ex m.fc0
          + VariationalLayer.kl_loss lg lg1p ex m.fc1
          + VariationalLayer.kl_loss lg lg1p ex m.fc2) := by
  simp [DMGPcifar.forward, DMGPcifar.init, reparamForward, varLayerInit,
    VariationalLayer.kl_loss, applyOp]
